import Mathlib

/-!
Shallow embedding of `src/app.py` (a CWA weather dashboard: JSON locator,
per-entity normalizer, SQLite snapshot store), together with theorems that
settle the specification claims.

JSON values decoded by `resp.json()` are modelled by the inductive `Json`
below; Python `None` and JSON `null` are the same object in CPython, so a
single constructor `Json.null` stands for both.  Python dictionaries built
by the `json` module have unique keys (later duplicates overwrite earlier
ones during decoding), so objects are represented as association lists with
distinct keys and looked up by first match.
-/

namespace App

/-- A decoded JSON value (equivalently, the Python object `json.loads`
produces: `None`, `bool`, numbers, `str`, `list`, `dict`). JSON numbers are
modelled as rationals, which represent every decimal literal exactly. -/
inductive Json where
  | null : Json
  | bool : Bool → Json
  | num : ℚ → Json
  | str : String → Json
  | arr : List Json → Json
  | obj : List (String × Json) → Json
deriving Repr

mutual

/-- Decidable equality for `Json` (written by hand because the automatic
deriving does not support the nested `List` occurrences). -/
def Json.decEq : (a b : Json) → Decidable (a = b)
  | .null, .null => isTrue rfl
  | .null, .bool _ => isFalse (fun h => Json.noConfusion h)
  | .null, .num _ => isFalse (fun h => Json.noConfusion h)
  | .null, .str _ => isFalse (fun h => Json.noConfusion h)
  | .null, .arr _ => isFalse (fun h => Json.noConfusion h)
  | .null, .obj _ => isFalse (fun h => Json.noConfusion h)
  | .bool _, .null => isFalse (fun h => Json.noConfusion h)
  | .bool a, .bool b =>
      if h : a = b then isTrue (by rw [h]) else isFalse (fun he => h (Json.bool.inj he))
  | .bool _, .num _ => isFalse (fun h => Json.noConfusion h)
  | .bool _, .str _ => isFalse (fun h => Json.noConfusion h)
  | .bool _, .arr _ => isFalse (fun h => Json.noConfusion h)
  | .bool _, .obj _ => isFalse (fun h => Json.noConfusion h)
  | .num _, .null => isFalse (fun h => Json.noConfusion h)
  | .num _, .bool _ => isFalse (fun h => Json.noConfusion h)
  | .num a, .num b =>
      if h : a = b then isTrue (by rw [h]) else isFalse (fun he => h (Json.num.inj he))
  | .num _, .str _ => isFalse (fun h => Json.noConfusion h)
  | .num _, .arr _ => isFalse (fun h => Json.noConfusion h)
  | .num _, .obj _ => isFalse (fun h => Json.noConfusion h)
  | .str _, .null => isFalse (fun h => Json.noConfusion h)
  | .str _, .bool _ => isFalse (fun h => Json.noConfusion h)
  | .str _, .num _ => isFalse (fun h => Json.noConfusion h)
  | .str a, .str b =>
      if h : a = b then isTrue (by rw [h]) else isFalse (fun he => h (Json.str.inj he))
  | .str _, .arr _ => isFalse (fun h => Json.noConfusion h)
  | .str _, .obj _ => isFalse (fun h => Json.noConfusion h)
  | .arr _, .null => isFalse (fun h => Json.noConfusion h)
  | .arr _, .bool _ => isFalse (fun h => Json.noConfusion h)
  | .arr _, .num _ => isFalse (fun h => Json.noConfusion h)
  | .arr _, .str _ => isFalse (fun h => Json.noConfusion h)
  | .arr as, .arr bs =>
      match Json.decEqList as bs with
      | isTrue h => isTrue (by rw [h])
      | isFalse h => isFalse (fun he => h (Json.arr.inj he))
  | .arr _, .obj _ => isFalse (fun h => Json.noConfusion h)
  | .obj _, .null => isFalse (fun h => Json.noConfusion h)
  | .obj _, .bool _ => isFalse (fun h => Json.noConfusion h)
  | .obj _, .num _ => isFalse (fun h => Json.noConfusion h)
  | .obj _, .str _ => isFalse (fun h => Json.noConfusion h)
  | .obj _, .arr _ => isFalse (fun h => Json.noConfusion h)
  | .obj as, .obj bs =>
      match Json.decEqKV as bs with
      | isTrue h => isTrue (by rw [h])
      | isFalse h => isFalse (fun he => h (Json.obj.inj he))

/-- Decidable equality for lists of `Json`. -/
def Json.decEqList : (as bs : List Json) → Decidable (as = bs)
  | [], [] => isTrue rfl
  | [], _ :: _ => isFalse (fun h => List.noConfusion h)
  | _ :: _, [] => isFalse (fun h => List.noConfusion h)
  | a :: as, b :: bs =>
      match Json.decEq a b with
      | isFalse h => isFalse (fun he => h (List.cons.inj he).1)
      | isTrue h1 =>
          match Json.decEqList as bs with
          | isTrue h2 => isTrue (by rw [h1, h2])
          | isFalse h => isFalse (fun he => h (List.cons.inj he).2)

/-- Decidable equality for key-value lists of `Json`. -/
def Json.decEqKV : (as bs : List (String × Json)) → Decidable (as = bs)
  | [], [] => isTrue rfl
  | [], _ :: _ => isFalse (fun h => List.noConfusion h)
  | _ :: _, [] => isFalse (fun h => List.noConfusion h)
  | (k1, v1) :: as, (k2, v2) :: bs =>
      if hk : k1 = k2 then
        match Json.decEq v1 v2 with
        | isFalse h => isFalse (fun he => h (congrArg Prod.snd (List.cons.inj he).1))
        | isTrue h1 =>
            match Json.decEqKV as bs with
            | isTrue h2 => isTrue (by rw [hk, h1, h2])
            | isFalse h => isFalse (fun he => h (List.cons.inj he).2)
      else isFalse (fun he => hk (congrArg Prod.fst (List.cons.inj he).1))

end

instance : DecidableEq Json := Json.decEq

instance {ε α : Type} [DecidableEq ε] [DecidableEq α] : DecidableEq (Except ε α) :=
  fun a b =>
    match a, b with
    | .ok x, .ok y =>
        if h : x = y then isTrue (by rw [h])
        else isFalse (fun he => h (Except.ok.inj he))
    | .error x, .error y =>
        if h : x = y then isTrue (by rw [h])
        else isFalse (fun he => h (Except.error.inj he))
    | .ok _, .error _ => isFalse (fun he => Except.noConfusion he)
    | .error _, .ok _ => isFalse (fun he => Except.noConfusion he)

/-- Python exception kinds that the embedded code can raise. -/
inductive PyErr where
  | typeErr : PyErr
  | valueErr : PyErr
  | keyErr : PyErr
  | attrErr : PyErr
  | indexErr : PyErr
  | opErr : PyErr
deriving DecidableEq, Repr

/-- First-match lookup in an association list (Python `dict` lookup; keys
are unique in dicts produced by JSON decoding). -/
def lookupKey (kvs : List (String × Json)) (k : String) : Option Json :=
  (kvs.find? (fun p => p.1 == k)).map (fun p => p.2)

/-- Python `d.get(k, default)`: `AttributeError` when `d` is not a dict. -/
def pyGetD (d : Json) (k : String) (dflt : Json) : Except PyErr Json :=
  match d with
  | .obj kvs => .ok ((lookupKey kvs k).getD dflt)
  | _ => .error .attrErr

/-- Python `d.get(k)` (default `None`). -/
def pyGet (d : Json) (k : String) : Except PyErr Json :=
  pyGetD d k .null

/-- Python `d[k]` for a string key: `KeyError` when absent, `TypeError`
when `d` does not support string subscripts. -/
def pyIndexKey (d : Json) (k : String) : Except PyErr Json :=
  match d with
  | .obj kvs =>
      match lookupKey kvs k with
      | some v => .ok v
      | none => .error .keyErr
  | _ => .error .typeErr

/-- Python `k in d` for a string `k`: key test on dicts, substring test on
strings, membership test on lists, `TypeError` otherwise. -/
def pyContains (d : Json) (k : String) : Except PyErr Bool :=
  match d with
  | .obj kvs => .ok (kvs.any (fun p => p.1 == k))
  | .str s => .ok (k.isEmpty || (s.splitOn k).length > 1)
  | .arr l => .ok (l.any (fun x => decide (x = .str k)))
  | _ => .error .typeErr

/-- Python truthiness of a decoded JSON value. -/
def pyTruthy : Json → Bool
  | .null => false
  | .bool b => b
  | .num q => decide (q ≠ 0)
  | .str s => decide (s ≠ "")
  | .arr l => decide (l ≠ [])
  | .obj kvs => decide (kvs ≠ [])

/-- Python `x[0]`: head of a list, first character of a string (as a
one-character string), `KeyError` on a string-keyed dict, `TypeError` on
values that are not subscriptable. -/
def pyIndexZero : Json → Except PyErr Json
  | .arr [] => .error .indexErr
  | .arr (x :: _) => .ok x
  | .str s =>
      match s.toList with
      | [] => .error .indexErr
      | c :: _ => .ok (.str (String.mk [c]))
  | .obj _ => .error .keyErr
  | _ => .error .typeErr

/-- Python `for x in v`: lists yield their elements, strings their
characters, dicts their keys; other values raise `TypeError`. -/
def pyIterate : Json → Except PyErr (List Json)
  | .arr l => .ok l
  | .str s => .ok (s.toList.map (fun c => .str (String.mk [c])))
  | .obj kvs => .ok (kvs.map (fun p => .str p.1))
  | _ => .error .typeErr

/-- Python `x is None` for a decoded JSON value. -/
def Json.isNull : Json → Bool
  | .null => true
  | _ => false

/-- Python `x == lit` for a string literal `lit`: decoded JSON values of a
non-string type are never `==` to a string. -/
def Json.eqStr : Json → String → Bool
  | .str s, t => s == t
  | _, _ => false

/-- A Python float value: finite floats are modelled exactly as rationals,
with the two non-finite families kept separate. -/
inductive PyFloat where
  | finite : ℚ → PyFloat
  | inf : Bool → PyFloat
  | nan : PyFloat
deriving DecidableEq, Repr

/-- ASCII whitespace stripped by Python `float()` on strings. -/
def isAsciiWs (c : Char) : Bool :=
  c = ' ' || c = '\t' || c = '\n' || c = '\r' || c = '\x0b' || c = '\x0c'

/-- Value of a list of decimal digit characters. -/
def digitsToNat (ds : List Char) : Nat :=
  ds.foldl (fun a c => a * 10 + (c.toNat - '0'.toNat)) 0

/-- Parse an unsigned mantissa `digits`, `digits.digits`, `digits.` or
`.digits`; returns its value and the remaining characters. -/
def parseMant (cs : List Char) : Option (ℚ × List Char) :=
  let ip := cs.takeWhile Char.isDigit
  let r1 := cs.dropWhile Char.isDigit
  match r1 with
  | '.' :: r2 =>
      let fp := r2.takeWhile Char.isDigit
      let r3 := r2.dropWhile Char.isDigit
      if ip.isEmpty && fp.isEmpty then none
      else some ((digitsToNat ip : ℚ) + (digitsToNat fp : ℚ) / (10 : ℚ) ^ fp.length, r3)
  | _ => if ip.isEmpty then none else some ((digitsToNat ip : ℚ), r1)

/-- Parse an optional exponent suffix `e±digits`; returns the scale factor
and the remaining characters, or `none` when the suffix is malformed. -/
def parseExpSuffix (cs : List Char) : Option (ℚ × List Char) :=
  match cs with
  | 'e' :: r1 | 'E' :: r1 =>
      let (neg, r2) : Bool × List Char :=
        match r1 with
        | '+' :: t => (false, t)
        | '-' :: t => (true, t)
        | t => (false, t)
      let ds := r2.takeWhile Char.isDigit
      let r3 := r2.dropWhile Char.isDigit
      if ds.isEmpty then none
      else some ((10 : ℚ) ^ ((if neg then -1 else 1) * (digitsToNat ds : ℤ)), r3)
  | _ => some (1, cs)

/-- Models CPython `float(s)` on a string: strip whitespace, optional sign,
then `inf`/`infinity`/`nan` (case-insensitive) or a decimal literal with an
optional exponent; anything else is a `ValueError` (`none`).  Non-ASCII
digits and underscore digit separators are outside the model. -/
def parsePyFloat (s : String) : Option PyFloat :=
  let cs0 := (s.toList.dropWhile isAsciiWs).reverse.dropWhile isAsciiWs |>.reverse
  let (neg, cs) : Bool × List Char :=
    match cs0 with
    | '+' :: t => (false, t)
    | '-' :: t => (true, t)
    | t => (false, t)
  let low := cs.map Char.toLower
  if low = "inf".toList || low = "infinity".toList then some (.inf neg)
  else if low = "nan".toList then some .nan
  else
    match parseMant cs with
    | none => none
    | some (m, r1) =>
        match parseExpSuffix r1 with
        | some (sc, []) => some (.finite (if neg then -(m * sc) else m * sc))
        | _ => none

/-- Models CPython `float(x)` on a decoded JSON value: numbers and booleans
convert, strings are parsed (`ValueError` on failure), and every other
type — including `None`, lists and dicts — raises `TypeError`. -/
def pyFloatOf : Json → Except PyErr PyFloat
  | .num q => .ok (.finite q)
  | .bool b => .ok (.finite (if b then 1 else 0))
  | .str s =>
      match parsePyFloat s with
      | some f => .ok f
      | none => .error .valueErr
  | _ => .error .typeErr

/-- One cell of a normalized record: either a Python value taken unchanged
from the payload (`pv`, with `pv .null` standing for `None`) or a Python
float produced by numeric coercion (`fl`). -/
inductive Cell where
  | pv : Json → Cell
  | fl : PyFloat → Cell
deriving DecidableEq, Repr

/-- The normalized forecast record: the dict built per location by
`parse_weather_json`, with keys location, min_temp, max_temp, description. -/
structure Row where
  location : Cell
  min_temp : Cell
  max_temp : Cell
  description : Cell
deriving DecidableEq, Repr

/-- Embeds `_get_root_locations` of `src/app.py`: prefer the
`cwaopendata → dataset → location` path, else the `records → location`
path, else the empty list. -/
def getRootLocations (data : Json) : Except PyErr Json := do
  if (← pyContains data "cwaopendata") then
    let cw ← pyIndexKey data "cwaopendata"
    let dataset ← pyGetD cw "dataset" (.obj [])
    pyGetD dataset "location" (.arr [])
  else if (← pyContains data "records") then
    let recs ← pyIndexKey data "records"
    pyGetD recs "location" (.arr [])
  else
    return .arr []

/-- Embeds `_get_first_time_value` of `src/app.py`: first entry of the
time series, read through the `parameter.parameterName` layout or the
`elementValue` (list or dict) layout, `None` when nothing matches. -/
def get_first_time_value (time_list : Json) : Except PyErr Json := do
  if !pyTruthy time_list then return .null
  let t0 ← pyIndexZero time_list
  let p ← pyGet t0 "parameter"
  match p with
  | .obj kvs => return (lookupKey kvs "parameterName").getD .null
  | _ =>
      let ev ← pyGet t0 "elementValue"
      match ev with
      | .arr (e0 :: _) => pyGet e0 "value"
      | .obj kvs => return (lookupKey kvs "value").getD .null
      | _ => return .null

/-- Embeds the body of the per-element loop of `parse_weather_json`:
extract the element's first time value, skip `None`, coerce `MinT`/`MaxT`
with `float` catching only `ValueError` (keeping the raw value then), and
store `Wx`/`WeatherDescription` as the description. -/
def applyElem (row : Row) (elem : Json) : Except PyErr Row := do
  let elemName ← pyGet elem "elementName"
  let tl ← pyGetD elem "time" (.arr [])
  let val ← get_first_time_value tl
  if val.isNull then return row
  if elemName.eqStr "MinT" then
    match pyFloatOf val with
    | .ok f => return { row with min_temp := .fl f }
    | .error .valueErr => return { row with min_temp := .pv val }
    | .error e => throw e
  else if elemName.eqStr "MaxT" then
    match pyFloatOf val with
    | .ok f => return { row with max_temp := .fl f }
    | .error .valueErr => return { row with max_temp := .pv val }
    | .error e => throw e
  else if elemName.eqStr "Wx" || elemName.eqStr "WeatherDescription" then
    return { row with description := .pv val }
  else
    return row

/-- Embeds the body of the per-location loop of `parse_weather_json`: the
row starts with the (defaulted) location name and `None` in every other
field, then each weather element is applied in order. -/
def parseLocation (loc : Json) : Except PyErr Row := do
  let name ← pyGetD loc "locationName" (.str "未知地點")
  let wes ← pyGetD loc "weatherElement" (.arr [])
  let elems ← pyIterate wes
  elems.foldlM applyElem
    { location := .pv name, min_temp := .pv .null, max_temp := .pv .null,
      description := .pv .null }

/-- Embeds `parse_weather_json` of `src/app.py`. -/
def parse_weather_json (data : Json) : Except PyErr (List Row) := do
  let locsJ ← getRootLocations data
  let locs ← pyIterate locsJ
  locs.mapM parseLocation

/-!
The snapshot store.  The spec treats the relational engine as an external
collaborator offering create-table-if-absent, delete-all, insert-row and a
query returning all rows in insertion order, so the `data.db` SQLite file
is modelled as the single `weather` table (absent until created) whose
rows carry their store-assigned AUTOINCREMENT surrogate id.
-/

/-- The SQLite database file `data.db`: `weather` is `none` until
`init_db` has created the table, otherwise the stored rows tagged with
their surrogate ids in insertion order; `seq` is the AUTOINCREMENT
sequence (the largest id ever handed out). -/
structure DB where
  weather : Option (List (Nat × Row))
  seq : Nat
deriving DecidableEq, Repr

/-- Embeds `init_db` of `src/app.py` (`CREATE TABLE IF NOT EXISTS`):
creates the empty `weather` table when absent, does nothing otherwise. -/
def init_db (db : DB) : DB :=
  match db.weather with
  | none => { weather := some [], seq := db.seq }
  | some _ => db

/-- Store-assigned ids for freshly inserted rows: AUTOINCREMENT hands out
`seq + 1`, `seq + 2`, … in insertion order. -/
def attachIds (seq : Nat) : List Row → List (Nat × Row)
  | [] => []
  | r :: rs => (seq + 1, r) :: attachIds (seq + 1) rs

/-- Embeds `save_weather_to_db` of `src/app.py`: `DELETE FROM weather`
then one `INSERT` per row in input order, committed at the end.
`OperationalError` when the table does not exist. -/
def save_weather_to_db (rows : List Row) (db : DB) : Except PyErr DB :=
  match db.weather with
  | none => .error .opErr
  | some _ => .ok { weather := some (attachIds db.seq rows), seq := db.seq + rows.length }

/-- Embeds `load_weather_from_db` of `src/app.py`: `SELECT id, location,
min_temp, max_temp, description FROM weather`, rows in insertion order;
errors when the table does not exist. -/
def load_weather_from_db (db : DB) : Except PyErr (List (Nat × Row)) :=
  match db.weather with
  | none => .error .opErr
  | some t => .ok t

/-!
Fault model for the replace-all write.  `save_weather_to_db` issues its
statements on one sqlite3 connection whose implicit deferred transaction
is committed only by the final `conn.commit()`; uncommitted work is rolled
back when the connection is abandoned after a failure.  The model keeps
the externally visible (committed) table separate from the connection's
uncommitted working view and lets a failure cut the statement sequence at
any point.
-/

/-- One statement issued inside the transaction of `save_weather_to_db`. -/
inductive Stmt where
  | sdelete : Stmt
  | sinsert : Row → Stmt
  | scommit : Stmt

/-- The statement sequence `save_weather_to_db rows` issues. -/
def saveStmts (rows : List Row) : List Stmt :=
  Stmt.sdelete :: (rows.map Stmt.sinsert ++ [Stmt.scommit])

/-- Transaction-level store state: `committed`/`cseq` is what external
callers observe, `working`/`wseq` the connection's uncommitted view. -/
structure TxDB where
  committed : List (Nat × Row)
  cseq : Nat
  working : List (Nat × Row)
  wseq : Nat

/-- Opening the connection: the working view starts at the committed state. -/
def txStart (t : List (Nat × Row)) (seq : Nat) : TxDB :=
  ⟨t, seq, t, seq⟩

/-- Effect of one statement: `DELETE` and `INSERT` touch only the working
view, `commit` publishes it. -/
def execStmt (st : TxDB) : Stmt → TxDB
  | .sdelete => { st with working := [] }
  | .sinsert r => { st with working := st.working ++ [(st.wseq + 1, r)], wseq := st.wseq + 1 }
  | .scommit => ⟨st.working, st.wseq, st.working, st.wseq⟩

/-- Run a list of statements in order. -/
def runStmts (st : TxDB) (l : List Stmt) : TxDB :=
  l.foldl execStmt st

/-- The externally visible table when an I/O failure aborts
`save_weather_to_db rows` on the store `(t, seq)` after exactly `k`
statements completed (rollback discards the working view). -/
def viewAfterFault (t : List (Nat × Row)) (seq : Nat) (rows : List Row) (k : Nat) :
    List (Nat × Row) :=
  (runStmts (txStart t seq) ((saveStmts rows).take k)).committed

/-!
Per-element analysis of the normalizer loop: each weather element either
skips (unrecognized name or `None` value), writes one cell into one of the
three element-driven fields, or raises.
-/

/-- The three output fields written by weather elements. -/
inductive FieldId where
  | fmin : FieldId
  | fmax : FieldId
  | fdesc : FieldId
deriving DecidableEq, Repr

/-- Reads the element-driven field `f` of a row. -/
def Row.fieldOf (row : Row) : FieldId → Cell
  | .fmin => row.min_temp
  | .fmax => row.max_temp
  | .fdesc => row.description

/-- Writes the element-driven field `f` of a row. -/
def setField (row : Row) (f : FieldId) (c : Cell) : Row :=
  match f with
  | .fmin => { row with min_temp := c }
  | .fmax => { row with max_temp := c }
  | .fdesc => { row with description := c }

/-- The decision `applyElem` takes for one element, separated from the row
it updates: `none` when the element is skipped, otherwise the field
written and the cell written into it. -/
def elemAct (elem : Json) : Except PyErr (Option (FieldId × Cell)) := do
  let elemName ← pyGet elem "elementName"
  let tl ← pyGetD elem "time" (.arr [])
  let val ← get_first_time_value tl
  if val.isNull then return none
  if elemName.eqStr "MinT" then
    match pyFloatOf val with
    | .ok f => return some (.fmin, .fl f)
    | .error .valueErr => return some (.fmin, .pv val)
    | .error e => throw e
  else if elemName.eqStr "MaxT" then
    match pyFloatOf val with
    | .ok f => return some (.fmax, .fl f)
    | .error .valueErr => return some (.fmax, .pv val)
    | .error e => throw e
  else if elemName.eqStr "Wx" || elemName.eqStr "WeatherDescription" then
    return some (.fdesc, .pv val)
  else
    return none

/-- Applies an element's decision to the row. -/
def applyAct (row : Row) : Option (FieldId × Cell) → Row
  | none => row
  | some (f, c) => setField row f c

/-- Whether an `Except` computation succeeded. -/
def isOkE {α : Type} : Except PyErr α → Bool
  | .ok _ => true
  | .error _ => false

/-- The write (if any) that element `e` performs on field `f`. -/
def elemWrite (f : FieldId) (e : Json) : Option Cell :=
  match elemAct e with
  | .ok (some (f2, c)) => if f2 = f then some c else none
  | _ => none

/-- The last write a list of elements performs on field `f`, if any:
later elements overwrite earlier ones, elements that skip (in particular
those whose extracted value is `None`) write nothing. -/
def lastWrite (f : FieldId) : List Json → Option Cell
  | [] => none
  | e :: es =>
      match lastWrite f es with
      | some c => some c
      | none => elemWrite f e

/-!
Concrete payload fixtures used by witnesses and counterexamples.
-/

/-- A weather element named `nm` whose single time entry carries value `v`
in the `parameter.parameterName` layout. -/
def mkElem (nm : String) (v : Json) : Json :=
  .obj [("elementName", .str nm),
        ("time", .arr [.obj [("parameter", .obj [("parameterName", v)])]])]

/-- A weather element named `nm` with an empty time series. -/
def mkElemEmptyTime (nm : String) : Json :=
  .obj [("elementName", .str nm), ("time", .arr [])]

/-- A row whose four cells are all `None`. -/
def rowEmpty : Row :=
  { location := .pv .null, min_temp := .pv .null, max_temp := .pv .null,
    description := .pv .null }

/-- The spec's forecast scenario payload (`cwaopendata` shape, one
location, `MinT` 23.0, `MaxT` 30.0, `Wx` 多雲短暫陣雨). -/
def c4Payload : Json :=
  .obj [("cwaopendata", .obj [("dataset", .obj [("location", .arr [
    .obj [("locationName", .str "臺北市"),
          ("weatherElement", .arr [mkElem "MinT" (.str "23.0"),
                                   mkElem "MaxT" (.str "30.0"),
                                   mkElem "Wx" (.str "多雲短暫陣雨")])]])])])]

/-- A payload whose single entity's `MinT` element extracts a list value
(`["23"]`), on which `float` raises `TypeError`. -/
def c1CexPayload : Json :=
  .obj [("records", .obj [("location", .arr [
    .obj [("weatherElement", .arr [mkElem "MinT" (.arr [.str "23"])])]])])]

/-- An entity with no `MinT` element whose `MaxT` element extracts a list
value (`["30"]`), on which `float` raises `TypeError`. -/
def c3CexEntity : Json :=
  .obj [("weatherElement", .arr [mkElem "MaxT" (.arr [.str "30"])])]

/-! Helper lemmas shared by the claim theorems. -/

/-- Processing one element is its decision applied to the row. -/
theorem applyElem_eq_act (row : Row) (elem : Json) :
    applyElem row elem = Except.map (applyAct row) (elemAct elem) := by
  simp only [applyElem, elemAct, bind, Except.bind]
  cases pyGet elem "elementName" with
  | error e => rfl
  | ok elemName =>
  dsimp only
  cases pyGetD elem "time" (.arr []) with
  | error e => rfl
  | ok tl =>
  dsimp only
  cases get_first_time_value tl with
  | error e => rfl
  | ok val =>
  dsimp only
  cases hb0 : val.isNull with
  | true => rfl
  | false =>
  cases hb1 : elemName.eqStr "MinT" with
  | true =>
      cases pyFloatOf val with
      | ok f => rfl
      | error e => cases e <;> rfl
  | false =>
  cases hb2 : elemName.eqStr "MaxT" with
  | true =>
      cases pyFloatOf val with
      | ok f => rfl
      | error e => cases e <;> rfl
  | false =>
  cases hb3 : elemName.eqStr "Wx" || elemName.eqStr "WeatherDescription" with
  | true => rfl
  | false => rfl

/-- A decision never moves the location cell. -/
theorem applyAct_location (row : Row) (a : Option (FieldId × Cell)) :
    (applyAct row a).location = row.location := by
  match a with
  | none => rfl
  | some (f, c) => cases f <;> rfl

/-- Reading field `f` after a decision: the written cell if the decision
writes `f`, the prior content otherwise. -/
theorem applyAct_fieldOf (row : Row) (a : Option (FieldId × Cell)) (f : FieldId) :
    (applyAct row a).fieldOf f =
      (match a with
       | some (f2, c) => if f2 = f then c else row.fieldOf f
       | none => row.fieldOf f) := by
  match a with
  | none => rfl
  | some (f2, c) => cases f2 <;> cases f <;> simp [applyAct, setField, Row.fieldOf]

/-- A successful element step comes from a successful decision. -/
theorem applyElem_ok_elim (row : Row) (elem : Json) (r : Row)
    (h : applyElem row elem = .ok r) :
    ∃ a, elemAct elem = .ok a ∧ r = applyAct row a := by
  rw [applyElem_eq_act] at h
  cases ha : elemAct elem with
  | error e => rw [ha] at h; exact absurd h (by simp [Except.map])
  | ok a =>
      rw [ha] at h
      simp only [Except.map, Except.ok.injEq] at h
      exact ⟨a, rfl, h.symm⟩

/-- Running the element loop over a list of elements whose decisions all
succeed: it succeeds, leaves the location untouched, and each element-driven
field ends at the last write performed on it (its initial content when no
element writes it). -/
theorem foldlM_applyElem_ok (f : FieldId) (es : List Json) (row : Row)
    (hok : ∀ e ∈ es, isOkE (elemAct e) = true) :
    ∃ r, es.foldlM applyElem row = .ok r ∧
      r.fieldOf f = (lastWrite f es).getD (row.fieldOf f) ∧
      r.location = row.location := by
  induction es generalizing row with
  | nil => exact ⟨row, rfl, by simp [lastWrite], rfl⟩
  | cons e es ih =>
      have he : isOkE (elemAct e) = true := hok e (List.mem_cons_self e es)
      cases ha : elemAct e with
      | error err => rw [ha] at he; exact absurd he (by simp [isOkE])
      | ok a =>
          obtain ⟨r, h1, h2, h3⟩ :=
            ih (applyAct row a) (fun e2 hm => hok e2 (List.mem_cons_of_mem _ hm))
          refine ⟨r, ?_, ?_, ?_⟩
          · rw [List.foldlM_cons, applyElem_eq_act, ha]
            simpa [Except.map, bind, Except.bind] using h1
          · rw [h2, applyAct_fieldOf]
            cases hl : lastWrite f es with
            | some c => simp [lastWrite, hl]
            | none =>
                simp only [lastWrite, hl, Option.getD_none]
                cases a with
                | none => simp [elemWrite, ha]
                | some p =>
                    obtain ⟨f2, c⟩ := p
                    by_cases hf : f2 = f
                    · simp [elemWrite, ha, hf]
                    · simp [elemWrite, ha, hf]
          · rw [h3, applyAct_location]

/-- Success of the element loop leaves the location cell untouched, with no
assumption on the elements. -/
theorem foldlM_applyElem_location (es : List Json) (row r : Row)
    (h : es.foldlM applyElem row = .ok r) : r.location = row.location := by
  induction es generalizing row with
  | nil =>
      simp only [List.foldlM_nil, pure, Except.pure, Except.ok.injEq] at h
      rw [← h]
  | cons e es ih =>
      rw [List.foldlM_cons] at h
      cases ha : applyElem row e with
      | error err => rw [ha] at h; exact absurd h (by simp [bind, Except.bind])
      | ok row2 =>
          rw [ha] at h
          simp only [bind, Except.bind] at h
          obtain ⟨a, ha2, hr2⟩ := applyElem_ok_elim row e row2 ha
          rw [ih row2 h, hr2, applyAct_location]

/-- `Json.eqStr` tests exactly equality with the given string literal. -/
theorem Json.eqStr_iff (j : Json) (t : String) : j.eqStr t = true ↔ j = .str t := by
  cases j <;> simp [Json.eqStr]

/-- A key absent from an object is found by no entry. -/
theorem lookupKey_none_any (kvs : List (String × Json)) (k : String)
    (h : lookupKey kvs k = none) : kvs.any (fun p => p.1 == k) = false := by
  rw [List.any_eq_false]
  intro p hp
  cases hf : kvs.find? (fun p => p.1 == k) with
  | none => exact fun hb => by simpa [hb] using List.find?_eq_none.mp hf p hp
  | some q => rw [lookupKey, hf] at h; exact absurd h (by simp)

/-- A key present in an object is found by some entry. -/
theorem lookupKey_some_any (kvs : List (String × Json)) (k : String) (v : Json)
    (h : lookupKey kvs k = some v) : kvs.any (fun p => p.1 == k) = true := by
  rw [List.any_eq_true]
  cases hf : kvs.find? (fun p => p.1 == k) with
  | none => rw [lookupKey, hf] at h; exact absurd h (by simp)
  | some q =>
      have hq := @List.find?_some _ _ _ _ hf
      exact ⟨q, List.mem_of_find?_eq_some hf, hq⟩

/-- When no element of the list writes field `f`, there is no last write. -/
theorem lastWrite_eq_none (f : FieldId) (es : List Json)
    (h : ∀ e ∈ es, elemWrite f e = none) : lastWrite f es = none := by
  induction es with
  | nil => rfl
  | cons e es ih =>
      have h1 := h e (List.mem_cons_self e es)
      have h2 := ih (fun e2 hm => h e2 (List.mem_cons_of_mem _ hm))
      simp [lastWrite, h1, h2]

/-- `parseLocation` on an entity mapping all of whose elements decide
without raising: it succeeds, the location is the (defaulted) location
name, and each element-driven field holds the last write performed on it
(`None` when no element writes it). -/
theorem parseLocation_obj (kvs : List (String × Json)) (es : List Json) (f : FieldId)
    (hwe : (lookupKey kvs "weatherElement").getD (.arr []) = .arr es)
    (hok : ∀ e ∈ es, isOkE (elemAct e) = true) :
    ∃ r, parseLocation (.obj kvs) = .ok r ∧
      r.location = .pv ((lookupKey kvs "locationName").getD (.str "未知地點")) ∧
      r.fieldOf f = (lastWrite f es).getD (.pv .null) := by
  obtain ⟨r, h1, h2, h3⟩ := foldlM_applyElem_ok f es
    { location := .pv ((lookupKey kvs "locationName").getD (.str "未知地點")),
      min_temp := .pv .null, max_temp := .pv .null, description := .pv .null } hok
  refine ⟨r, ?_, by rw [h3], ?_⟩
  · simp only [parseLocation, pyGetD, bind, Except.bind, hwe, pyIterate]
    exact h1
  · rw [h2]
    have hinit : Row.fieldOf
        { location := .pv ((lookupKey kvs "locationName").getD (.str "未知地點")),
          min_temp := .pv .null, max_temp := .pv .null, description := .pv (.null) } f =
        .pv .null := by cases f <;> rfl
    rw [hinit]

/-! Claim theorems. -/

/-- C2 (confirmed): for every decoded payload mapping containing neither
the `cwaopendata` nor the `records` top-level wrapper key, the locator
returns the empty entity list and raises nothing. -/
theorem locator_unknown_shape_empty (kvs : List (String × Json))
    (h1 : lookupKey kvs "cwaopendata" = none)
    (h2 : lookupKey kvs "records" = none) :
    getRootLocations (.obj kvs) = .ok (.arr []) := by
  have a1 := lookupKey_none_any kvs "cwaopendata" h1
  have a2 := lookupKey_none_any kvs "records" h2
  simp only [getRootLocations, pyContains, bind, Except.bind, a1, a2]
  rfl

/-- Witness for C2 at a concrete payload that matches neither shape. -/
theorem locator_unknown_shape_empty_witness :
    lookupKey [("foo", Json.null)] "cwaopendata" = none ∧
    lookupKey [("foo", Json.null)] "records" = none ∧
    getRootLocations (.obj [("foo", Json.null)]) = .ok (.arr []) :=
  ⟨rfl, rfl, locator_unknown_shape_empty [("foo", Json.null)] rfl rfl⟩

/-- C9 (confirmed): when the `cwaopendata` wrapper key is present the
locator reads exclusively through `cwaopendata → dataset → location` —
the right-hand side does not mention the `records` wrapper at all, so a
payload carrying both keys has its `records` data ignored. -/
theorem locator_prefers_cwaopendata (kvs : List (String × Json)) (cw : Json)
    (h : lookupKey kvs "cwaopendata" = some cw) :
    getRootLocations (.obj kvs) =
      Except.bind (pyGetD cw "dataset" (.obj []))
        (fun dataset => pyGetD dataset "location" (.arr [])) := by
  have a1 := lookupKey_some_any kvs "cwaopendata" cw h
  simp [getRootLocations, pyContains, bind, Except.bind, a1, pyIndexKey, h]

/-- Witness for C9: both wrapper keys present and entity data only under
`records` still yields the empty list. -/
theorem locator_prefers_cwaopendata_witness :
    lookupKey [("cwaopendata", Json.obj []),
        ("records", Json.obj [("location",
          Json.arr [Json.obj [("locationName", Json.str "臺北市")]])])]
      "cwaopendata" = some (.obj []) ∧
    getRootLocations (.obj [("cwaopendata", Json.obj []),
        ("records", Json.obj [("location",
          Json.arr [Json.obj [("locationName", Json.str "臺北市")]])])]) =
      .ok (.arr []) :=
  ⟨rfl, (locator_prefers_cwaopendata
      [("cwaopendata", Json.obj []),
       ("records", Json.obj [("location",
         Json.arr [Json.obj [("locationName", Json.str "臺北市")]])])]
      (.obj []) rfl).trans rfl⟩

/-- C7 (confirmed): `init_db` (the `ensureSchema` operation,
`CREATE TABLE IF NOT EXISTS`) is idempotent — a second call raises no
error and leaves the store, schema and rows, exactly as one call does. -/
theorem ensureSchema_idempotent (db : DB) : init_db (init_db db) = init_db db := by
  cases h : db.weather <;> simp [init_db, h]

/-- C8 (confirmed): the location field of a normalized record is the
entity's `locationName` value taken as-is, and the sentinel string
`未知地點` — not null — when the key is absent (then `lookupKey` is `none`
and the `getD` default applies). -/
theorem location_defaults_to_sentinel (kvs : List (String × Json)) (r : Row)
    (h : parseLocation (.obj kvs) = .ok r) :
    r.location = .pv ((lookupKey kvs "locationName").getD (.str "未知地點")) := by
  simp only [parseLocation, pyGetD, bind, Except.bind] at h
  cases hit : pyIterate ((lookupKey kvs "weatherElement").getD (.arr [])) with
  | error e => rw [hit] at h; exact absurd h (by simp)
  | ok elems =>
      rw [hit] at h
      exact foldlM_applyElem_location elems _ r h

/-- Witness for C8 at the empty entity mapping (no location-name key). -/
theorem location_defaults_to_sentinel_witness :
    parseLocation (.obj []) = .ok
      { location := .pv (.str "未知地點"), min_temp := .pv .null,
        max_temp := .pv .null, description := .pv .null } ∧
    Cell.pv (.str "未知地點") =
      .pv ((lookupKey ([] : List (String × Json)) "locationName").getD (.str "未知地點")) :=
  ⟨rfl, location_defaults_to_sentinel [] _ rfl⟩

/-- C1 counterexample: the claim asserts that coercion failure never drops
the record and never raises "for any extracted raw value whatsoever", but
on this payload — whose `MinT` element extracts the list `["23"]` —
`float` raises a `TypeError` that `except ValueError` does not catch, so
the whole parse raises and no record is emitted. -/
theorem coercion_typeerror_cex :
    parse_weather_json c1CexPayload = .error .typeErr := rfl

/-- C1 (corrected, restricted to string values): when the extracted raw
value is a string on which float parsing fails, the `ValueError` is caught
and the element step succeeds, storing the raw string itself — not null
and not a float — unchanged into min_temp (resp. max_temp). -/
theorem coercion_failure_keeps_raw (row : Row) (elem : Json) (nmJ tl : Json) (s : String)
    (hnm : pyGet elem "elementName" = .ok nmJ)
    (htl : pyGetD elem "time" (.arr []) = .ok tl)
    (hval : get_first_time_value tl = .ok (.str s))
    (hfail : parsePyFloat s = none) :
    (nmJ = .str "MinT" → applyElem row elem = .ok { row with min_temp := .pv (.str s) }) ∧
    (nmJ = .str "MaxT" → applyElem row elem = .ok { row with max_temp := .pv (.str s) }) := by
  constructor <;> rintro rfl <;>
    simp only [applyElem, bind, Except.bind, hnm, htl, hval, Json.isNull, Json.eqStr,
      pyFloatOf, hfail] <;> rfl

/-- Witness for C1 at the raw string `"N/A"`, which fails float parsing. -/
theorem coercion_failure_keeps_raw_witness :
    parsePyFloat "N/A" = none ∧
    applyElem rowEmpty (mkElem "MinT" (.str "N/A")) =
      .ok { rowEmpty with min_temp := .pv (.str "N/A") } :=
  ⟨rfl, (coercion_failure_keeps_raw rowEmpty (mkElem "MinT" (.str "N/A"))
      (.str "MinT")
      (.arr [.obj [("parameter", .obj [("parameterName", .str "N/A")])]])
      "N/A" rfl rfl rfl rfl).1 rfl⟩

/-- C3 counterexample: an entity missing its `MinT` element on which
normalization nevertheless raises (`TypeError` from `float` applied to the
list another element extracted), refuting "normalization of that entity
still succeeds regardless of which other fields are present". -/
theorem missing_element_cex : parseLocation c3CexEntity = .error .typeErr := rfl

/-- C3 (corrected, restricted to entities whose other elements are
well-behaved): for an entity mapping whose weather elements all decide
without raising, if no element writes the given output field — in
particular when the field's named element is absent, or its time or value
series is empty, both of which make `elemWrite` `none` — normalization
succeeds and that field of the record is null. -/
theorem missing_element_yields_null (kvs : List (String × Json)) (es : List Json)
    (f : FieldId)
    (hwe : (lookupKey kvs "weatherElement").getD (.arr []) = .arr es)
    (hok : ∀ e ∈ es, isOkE (elemAct e) = true)
    (hmiss : ∀ e ∈ es, elemWrite f e = none) :
    ∃ r, parseLocation (.obj kvs) = .ok r ∧ r.fieldOf f = .pv .null := by
  obtain ⟨r, h1, _, h3⟩ := parseLocation_obj kvs es f hwe hok
  exact ⟨r, h1, by rw [h3, lastWrite_eq_none f es hmiss]; rfl⟩

/-- Witness for C3: an entity with a `Wx` element and a `MinT` element
with an empty time series; min_temp is null and parsing succeeds. -/
theorem missing_element_yields_null_witness :
    (∀ e ∈ [mkElem "Wx" (.str "sunny"), mkElemEmptyTime "MinT"],
        isOkE (elemAct e) = true) ∧
    (∀ e ∈ [mkElem "Wx" (.str "sunny"), mkElemEmptyTime "MinT"],
        elemWrite .fmin e = none) ∧
    ∃ r, parseLocation (.obj [("locationName", .str "臺北市"),
        ("weatherElement", .arr [mkElem "Wx" (.str "sunny"),
                                 mkElemEmptyTime "MinT"])]) = .ok r ∧
      r.fieldOf .fmin = .pv .null :=
  ⟨by decide, by decide,
    missing_element_yields_null
      [("locationName", .str "臺北市"),
       ("weatherElement", .arr [mkElem "Wx" (.str "sunny"), mkElemEmptyTime "MinT"])]
      [mkElem "Wx" (.str "sunny"), mkElemEmptyTime "MinT"] .fmin
      rfl (by decide) (by decide)⟩

section

attribute [local semireducible] Rat.add Rat.mul Rat.inv Rat.sub

/-- C4 (confirmed): the spec's forecast scenario payload normalizes to
exactly the expected record, with both temperatures coerced to floats. -/
theorem forecast_scenario_record :
    parse_weather_json c4Payload =
      .ok [{ location := .pv (.str "臺北市"), min_temp := .fl (.finite 23),
             max_temp := .fl (.finite 30),
             description := .pv (.str "多雲短暫陣雨") }] := by decide

end

/-- C10 (confirmed): each element-driven field of the record ends as the
last write performed on it by the entity's element list, where elements
map to fields by name (`MinT`, `MaxT`, `Wx`/`WeatherDescription` both to
description), later writes overwrite earlier ones, and an element whose
extraction yields `None` performs no write at all (so it never overwrites
a previously set value). -/
theorem later_elements_overwrite (kvs : List (String × Json)) (es : List Json)
    (f : FieldId)
    (hwe : (lookupKey kvs "weatherElement").getD (.arr []) = .arr es)
    (hok : ∀ e ∈ es, isOkE (elemAct e) = true) :
    ∃ r, parseLocation (.obj kvs) = .ok r ∧
      r.fieldOf f = (lastWrite f es).getD (.pv .null) := by
  obtain ⟨r, h1, _, h3⟩ := parseLocation_obj kvs es f hwe hok
  exact ⟨r, h1, h3⟩

/-- Witness for C10: a `Wx` element, then a `WeatherDescription` element,
then a `WeatherDescription` element extracting `None`; the last write on
the description field is the second element's value `"cloudy"`. -/
theorem later_elements_overwrite_witness :
    (∀ e ∈ [mkElem "Wx" (.str "sunny"), mkElem "WeatherDescription" (.str "cloudy"),
            mkElemEmptyTime "WeatherDescription"], isOkE (elemAct e) = true) ∧
    lastWrite .fdesc [mkElem "Wx" (.str "sunny"),
        mkElem "WeatherDescription" (.str "cloudy"),
        mkElemEmptyTime "WeatherDescription"] = some (.pv (.str "cloudy")) ∧
    ∃ r, parseLocation (.obj [("weatherElement",
        .arr [mkElem "Wx" (.str "sunny"), mkElem "WeatherDescription" (.str "cloudy"),
              mkElemEmptyTime "WeatherDescription"])]) = .ok r ∧
      r.fieldOf .fdesc =
        (lastWrite .fdesc [mkElem "Wx" (.str "sunny"),
            mkElem "WeatherDescription" (.str "cloudy"),
            mkElemEmptyTime "WeatherDescription"]).getD (.pv .null) :=
  ⟨by decide, rfl,
    later_elements_overwrite
      [("weatherElement", .arr [mkElem "Wx" (.str "sunny"),
          mkElem "WeatherDescription" (.str "cloudy"),
          mkElemEmptyTime "WeatherDescription"])]
      [mkElem "Wx" (.str "sunny"), mkElem "WeatherDescription" (.str "cloudy"),
       mkElemEmptyTime "WeatherDescription"] .fdesc rfl (by decide)⟩

/-- Stripping the surrogate ids recovers the inserted rows. -/
theorem attachIds_map_snd (seq : Nat) (rows : List Row) :
    (attachIds seq rows).map Prod.snd = rows := by
  induction rows generalizing seq with
  | nil => rfl
  | cons r rs ih => simp [attachIds, ih]

/-- C5 (confirmed): on a store whose table exists, `replaceAll(records)`
followed by `readAll()` yields exactly the input records in input order —
equal field by field once the store-assigned surrogate id column is
stripped — and nothing else, so no row of any prior snapshot remains. -/
theorem replaceAll_roundtrip (rows : List Row) (db : DB) (t : List (Nat × Row))
    (h : db.weather = some t) :
    ∃ db2, save_weather_to_db rows db = .ok db2 ∧
      load_weather_from_db db2 = .ok (attachIds db.seq rows) ∧
      (attachIds db.seq rows).map Prod.snd = rows := by
  refine ⟨{ weather := some (attachIds db.seq rows), seq := db.seq + rows.length },
    ?_, rfl, attachIds_map_snd db.seq rows⟩
  simp [save_weather_to_db, h]

/-- Witness for C5: a store holding one prior row is replaced by two new
rows; reading back yields exactly the two new rows. -/
theorem replaceAll_roundtrip_witness :
    DB.weather
        { weather := some [(1, { rowEmpty with location := .pv (.str "高雄市") })],
          seq := 1 } =
      some [(1, { rowEmpty with location := .pv (.str "高雄市") })] ∧
    ∃ db2, save_weather_to_db
        [{ rowEmpty with location := .pv (.str "臺北市") },
         { rowEmpty with description := .pv (.str "cloudy") }]
        { weather := some [(1, { rowEmpty with location := .pv (.str "高雄市") })],
          seq := 1 } = .ok db2 ∧
      load_weather_from_db db2 =
        .ok (attachIds 1
          [{ rowEmpty with location := .pv (.str "臺北市") },
           { rowEmpty with description := .pv (.str "cloudy") }]) ∧
      (attachIds 1
          [{ rowEmpty with location := .pv (.str "臺北市") },
           { rowEmpty with description := .pv (.str "cloudy") }]).map Prod.snd =
        [{ rowEmpty with location := .pv (.str "臺北市") },
         { rowEmpty with description := .pv (.str "cloudy") }] :=
  ⟨rfl, replaceAll_roundtrip
    [{ rowEmpty with location := .pv (.str "臺北市") },
     { rowEmpty with description := .pv (.str "cloudy") }]
    { weather := some [(1, { rowEmpty with location := .pv (.str "高雄市") })], seq := 1 }
    [(1, { rowEmpty with location := .pv (.str "高雄市") })] rfl⟩

/-- Running the insert statements appends the id-tagged rows to the
working view and touches nothing committed. -/
theorem runStmts_inserts (l : List Row) (st : TxDB) :
    runStmts st (l.map Stmt.sinsert) =
      ⟨st.committed, st.cseq, st.working ++ attachIds st.wseq l, st.wseq + l.length⟩ := by
  induction l generalizing st with
  | nil => simp [runStmts, attachIds]
  | cons r rs ih =>
      simp only [List.map_cons, runStmts, List.foldl_cons, execStmt] at *
      rw [ih]
      simp [attachIds, List.append_assoc]
      omega

/-- Running the whole statement sequence commits exactly the replacement
table. -/
theorem runStmts_all (rows : List Row) (t : List (Nat × Row)) (seq : Nat) :
    runStmts (txStart t seq) (saveStmts rows) =
      ⟨attachIds seq rows, seq + rows.length, attachIds seq rows, seq + rows.length⟩ := by
  have h1 : runStmts (txStart t seq) (saveStmts rows) =
      runStmts ⟨t, seq, [], seq⟩ (rows.map Stmt.sinsert ++ [Stmt.scommit]) := rfl
  rw [h1, runStmts, List.foldl_append]
  have h2 : List.foldl execStmt ⟨t, seq, [], seq⟩ (rows.map Stmt.sinsert) =
      ⟨t, seq, [] ++ attachIds seq rows, seq + rows.length⟩ :=
    runStmts_inserts rows ⟨t, seq, [], seq⟩
  rw [h2]
  simp [execStmt]

/-- A fault striking before the commit statement leaves the prior
snapshot visible. -/
theorem viewAfterFault_before_commit (t : List (Nat × Row)) (seq : Nat)
    (rows : List Row) (k : Nat) (hk : k ≤ rows.length + 1) :
    viewAfterFault t seq rows k = t := by
  cases k with
  | zero => rfl
  | succ k2 =>
      have hk2 : k2 ≤ (rows.map Stmt.sinsert).length := by
        simp only [List.length_map]; omega
      have htake : (saveStmts rows).take (k2 + 1) =
          Stmt.sdelete :: (rows.take k2).map Stmt.sinsert := by
        simp [saveStmts, List.take_append_of_le_length hk2, List.map_take]
      rw [viewAfterFault, htake]
      have h1 : runStmts (txStart t seq)
          (Stmt.sdelete :: (rows.take k2).map Stmt.sinsert) =
          runStmts ⟨t, seq, [], seq⟩ ((rows.take k2).map Stmt.sinsert) := rfl
      rw [h1, runStmts_inserts]

/-- C6 (confirmed under the transaction model): an I/O failure at any
point of `replaceAll` leaves external callers seeing either the complete
prior snapshot or the complete new one, never a partial state; a complete
run installs exactly the replacement snapshot. -/
theorem replaceAll_atomic (t : List (Nat × Row)) (seq : Nat) (rows : List Row) (k : Nat) :
    (viewAfterFault t seq rows k = t ∨
     viewAfterFault t seq rows k = attachIds seq rows) ∧
    save_weather_to_db rows ⟨some t, seq⟩ =
      .ok ⟨some (attachIds seq rows), seq + rows.length⟩ := by
  constructor
  · by_cases hk : k ≤ rows.length + 1
    · exact Or.inl (viewAfterFault_before_commit t seq rows k hk)
    · right
      have hlen : (saveStmts rows).length = rows.length + 2 := by simp [saveStmts]
      have htake : (saveStmts rows).take k = saveStmts rows :=
        List.take_of_length_le (by omega)
      rw [viewAfterFault, htake, runStmts_all]
  · simp [save_weather_to_db]

end App
